import Mathlib

/-!
# Shallow embedding of `uniswap_rs` (`src/v2/library.rs`)

This file embeds the pure computational core of the `Library` struct of
`src/v2/library.rs` into Lean and proves properties about it.

Modelling decisions, stated once here:

* `ethers::types::U256` (from the `uint`/`primitive-types` crates) is modelled
  as `Nat`. Its arithmetic operators `*`, `+`, `-`, `/` are *checked* in every
  build profile: they panic on 256-bit overflow, on subtraction underflow and
  on division by zero (`panic_on_overflow!` / division-by-zero panic in the
  `uint` crate); they never wrap. A Rust panic is modelled by the explicit
  outcome `RRes.abort`, distinct from returning `Err`, so every embedded
  operation has type `RRes α` with constructors `abort` (panic), `err`
  (`Err(LibraryError::…)`) and `ok` (`Ok`).
* `ethers::types::Address` (`H160`, 20 bytes) is modelled as `Nat`; `H160`'s
  `Ord` compares the raw bytes lexicographically, which for fixed-width
  big-endian bytes coincides with the numeric order on `Nat`, and
  `Address::zero()` is `0`.
* `keccak256` and the CREATE2 address formula live in the external `ethers`
  crate. They are kept abstract: `pair_for` is parameterised by the 256-bit
  hash function `keccak : List Nat → Nat` applied to a byte list, exactly at
  the two places the source calls it (the salt over the packed sorted
  addresses, and `get_create2_address_from_hash`, whose result is the low 20
  bytes, i.e. `% 2 ^ 160`, of the hash of `0xff ++ from ++ salt ++
  init_code_hash`).
* The async fetching functions (`get_reserves`, `get_reserves_multi`) perform
  network I/O; the chained computations `get_amounts_out` / `get_amounts_in`
  are embedded with the *outcome* of `get_reserves_multi client factory path`
  passed in as an explicit `fetch : Except LibraryError (List (Nat × Nat))`
  parameter. On success `get_reserves_multi` returns exactly
  `path.length - 1` reserve pairs (it fills a vector of that length), which
  appears as a hypothesis where needed.
-/

namespace UniswapRs

/-- The error type `LibraryError` of `src/errors.rs` (variants as used by
`src/v2/library.rs`). -/
inductive LibraryError where
  | IdenticalAddresses
  | AddressZero
  | InvalidPath
  | InsufficientAmount
  | InsufficientInputAmount
  | InsufficientOutputAmount
  | InsufficientLiquidity
  | ContractError (msg : String)
  | MulticallError (msg : String)
deriving DecidableEq, Repr

/-- Outcome of running a piece of Rust code that returns
`LibraryResult<α> = Result<α, LibraryError>` but may also panic:
`abort` is a panic (checked-arithmetic overflow/underflow/division-by-zero),
`err e` is `Err(e)`, `ok v` is `Ok(v)`. -/
inductive RRes (α : Type) where
  | abort
  | err (e : LibraryError)
  | ok (v : α)
deriving DecidableEq, Repr

/-- Sequencing: a panic or an `Err` short-circuits (the `?` operator /
straight-line evaluation order of the Rust code). -/
def RRes.bind {α β : Type} : RRes α → (α → RRes β) → RRes β
  | .abort, _ => .abort
  | .err e, _ => .err e
  | .ok v, f => f v

/-- `2 ^ 256`, the number of values of `U256`. -/
def U256size : Nat := 2 ^ 256

/-- `U256` multiplication (`impl Mul for U256` in the `uint` crate): panics on
overflow, never wraps. -/
def mulU (a b : Nat) : RRes Nat :=
  if a * b < U256size then .ok (a * b) else .abort

/-- `U256` addition: panics on overflow, never wraps. -/
def addU (a b : Nat) : RRes Nat :=
  if a + b < U256size then .ok (a + b) else .abort

/-- `U256` subtraction: panics on underflow, never wraps. -/
def subU (a b : Nat) : RRes Nat :=
  if b ≤ a then .ok (a - b) else .abort

/-- `U256` division: truncating; panics on division by zero. -/
def divU (a b : Nat) : RRes Nat :=
  if b = 0 then .abort else .ok (a / b)

/-- `Library::get_amount_out` (`src/v2/library.rs:129-144`):

```rust
if amount_in.is_zero() { return Err(LibraryError::InsufficientInputAmount) }
if reserve_in.is_zero() || reserve_out.is_zero() {
    return Err(LibraryError::InsufficientLiquidity)
}
let amount_in_with_fee: U256 = amount_in * 997;
let numerator: U256 = amount_in_with_fee * reserve_out;
let denominator: U256 = (reserve_in * 1000) + amount_in_with_fee;
Ok(numerator / denominator)
```
-/
def get_amount_out (amount_in reserve_in reserve_out : Nat) : RRes Nat :=
  if amount_in = 0 then .err .InsufficientInputAmount
  else if reserve_in = 0 ∨ reserve_out = 0 then .err .InsufficientLiquidity
  else
    (mulU amount_in 997).bind fun amount_in_with_fee =>
    (mulU amount_in_with_fee reserve_out).bind fun numerator =>
    (mulU reserve_in 1000).bind fun t =>
    (addU t amount_in_with_fee).bind fun denominator =>
    divU numerator denominator

/-- `Library::get_amount_in` (`src/v2/library.rs:148-162`):

```rust
if amount_out.is_zero() { return Err(LibraryError::InsufficientOutputAmount) }
if reserve_in.is_zero() || reserve_out.is_zero() {
    return Err(LibraryError::InsufficientLiquidity)
}
let numerator: U256 = (reserve_in * amount_out) * 1000;
let denominator: U256 = (reserve_out - amount_out) * 997;
Ok((numerator / denominator) + 1)
```
-/
def get_amount_in (amount_out reserve_in reserve_out : Nat) : RRes Nat :=
  if amount_out = 0 then .err .InsufficientOutputAmount
  else if reserve_in = 0 ∨ reserve_out = 0 then .err .InsufficientLiquidity
  else
    (mulU reserve_in amount_out).bind fun t =>
    (mulU t 1000).bind fun numerator =>
    (subU reserve_out amount_out).bind fun d =>
    (mulU d 997).bind fun denominator =>
    (divU numerator denominator).bind fun q =>
    addU q 1

/-- `Library::sort_tokens` (`src/v2/library.rs:18-30`): order the two
addresses ascending by `Ord` (`Equal` returns `IdenticalAddresses`
immediately), then fail with `AddressZero` if the lower one is zero.

```rust
let (a, b) = match a.cmp(&b) {
    std::cmp::Ordering::Less => (a, b),
    std::cmp::Ordering::Equal => return Err(LibraryError::IdenticalAddresses),
    std::cmp::Ordering::Greater => (b, a),
};
if a.is_zero() { return Err(LibraryError::AddressZero) }
Ok((a, b))
```
-/
def sort_tokens (a b : Nat) : Except LibraryError (Nat × Nat) :=
  match compare a b with
  | .eq => .error .IdenticalAddresses
  | .lt => if a = 0 then .error .AddressZero else .ok (a, b)
  | .gt => if b = 0 then .error .AddressZero else .ok (b, a)

/-- Big-endian byte representation (`n` bytes) of a number, each byte a `Nat`
below 256; used for `abi.encodePacked` of addresses (20 bytes) and of 32-byte
words. -/
def bytesBE (n a : Nat) : List Nat :=
  (List.range n).map fun i => a / 256 ^ (n - 1 - i) % 256

/-- `ethers::utils::get_create2_address_from_hash`: the low 20 bytes of
`keccak256(0xff ++ from ++ salt ++ init_code_hash)`; the hash itself is the
abstract parameter `keccak`. -/
def get_create2_address_from_hash (keccak : List Nat → Nat)
    (source salt init_code_hash : Nat) : Nat :=
  keccak (0xff :: (bytesBE 20 source ++ bytesBE 32 salt ++ bytesBE 32 init_code_hash))
    % 2 ^ 160

/-- `Library::pair_for` (`src/v2/library.rs:33-43`), with `factory.address()`
and `factory.pair_code_hash()` passed as the numbers `factory_address` and
`pair_code_hash`, and `keccak256` abstract:

```rust
let (a, b) = Self::sort_tokens(a, b)?;
let from = factory.address();
let salt = ethers::utils::keccak256([a.0, b.0].concat());
let init_code_hash = factory.pair_code_hash().0;
let address = ethers::utils::get_create2_address_from_hash(from, salt, init_code_hash);
Ok(address)
```
-/
def pair_for (keccak : List Nat → Nat) (factory_address pair_code_hash : Nat)
    (a b : Nat) : Except LibraryError Nat :=
  match sort_tokens a b with
  | .error e => .error e
  | .ok (a, b) =>
      let salt := keccak (bytesBE 20 a ++ bytesBE 20 b)
      .ok (get_create2_address_from_hash keccak factory_address salt pair_code_hash)

/-- The `for` loop of `Library::get_amounts_out` (`src/v2/library.rs:179-181`):
given the reserve pairs of the successive legs and the initial amount, build
`amounts` with `amounts[0] = amount_in` and
`amounts[i + 1] = get_amount_out(amounts[i], reserve_in_i, reserve_out_i)?`,
short-circuiting on the first leg that fails. -/
def amountsOutLoop : List (Nat × Nat) → Nat → RRes (List Nat)
  | [], a => .ok [a]
  | (rin, rout) :: rest, a =>
    (get_amount_out a rin rout).bind fun next =>
    (amountsOutLoop rest next).bind fun amounts =>
    .ok (a :: amounts)

/-- `Library::get_amounts_out` (`src/v2/library.rs:165-183`). The async call
`Self::get_reserves_multi(client, factory, path)` is I/O; its outcome is the
explicit parameter `fetch` (on success it holds exactly `path.length - 1`
reserve pairs, one per leg, already ordered in the leg's trade direction):

```rust
let l = path.len();
if l < 2 { return Err(LibraryError::InvalidPath) }
let mut amounts = vec![U256::zero(); l];
amounts[0] = amount_in;
let reserves = Self::get_reserves_multi(client, factory, path).await?;
for (i, (reserve_in, reserve_out)) in reserves.into_iter().enumerate() {
    amounts[i + 1] = Self::get_amount_out(amounts[i], reserve_in, reserve_out)?;
}
Ok(amounts)
```
-/
def get_amounts_out (amount_in : Nat) (path : List Nat)
    (fetch : Except LibraryError (List (Nat × Nat))) : RRes (List Nat) :=
  if path.length < 2 then .err .InvalidPath
  else
    match fetch with
    | .error e => .err e
    | .ok reserves => amountsOutLoop reserves amount_in

/-- The `for … .rev()` loop of `Library::get_amounts_in`
(`src/v2/library.rs:200-202`): walk the legs backwards, seeding
`amounts[l - 1] = amount_out` and setting
`amounts[i] = get_amount_in(amounts[i + 1], reserve_in_i, reserve_out_i)?`.
The later (rightmost) legs are computed first, so their failures win. -/
def amountsInLoop : List (Nat × Nat) → Nat → RRes (List Nat)
  | [], a => .ok [a]
  | (rin, rout) :: rest, a =>
    (amountsInLoop rest a).bind fun amounts =>
    (get_amount_in (amounts.headD 0) rin rout).bind fun first =>
    .ok (first :: amounts)

/-- `Library::get_amounts_in` (`src/v2/library.rs:186-204`), with the outcome
of `Self::get_reserves_multi(client, factory, path)` as the explicit `fetch`
parameter, as in `get_amounts_out`:

```rust
let l = path.len();
if l < 2 { return Err(LibraryError::InvalidPath) }
let mut amounts = vec![U256::zero(); l];
amounts[l - 1] = amount_out;
let reserves = Self::get_reserves_multi(client, factory, path).await?;
for (i, (reserve_in, reserve_out)) in reserves.into_iter().enumerate().rev() {
    amounts[i] = Self::get_amount_in(amounts[i + 1], reserve_in, reserve_out)?;
}
Ok(amounts)
```
-/
def get_amounts_in (amount_out : Nat) (path : List Nat)
    (fetch : Except LibraryError (List (Nat × Nat))) : RRes (List Nat) :=
  if path.length < 2 then .err .InvalidPath
  else
    match fetch with
    | .error e => .err e
    | .ok reserves => amountsInLoop reserves amount_out

/-! ## Basic lemmas about the embedded primitives -/

@[simp] theorem RRes.bind_abort {α β : Type} (f : α → RRes β) :
    RRes.bind .abort f = .abort := rfl

@[simp] theorem RRes.bind_err {α β : Type} (e : LibraryError) (f : α → RRes β) :
    RRes.bind (.err e) f = .err e := rfl

@[simp] theorem RRes.bind_ok {α β : Type} (v : α) (f : α → RRes β) :
    RRes.bind (.ok v) f = f v := rfl

@[simp] theorem RRes.bind_eq_ok_iff {α β : Type} (x : RRes α) (f : α → RRes β) (v : β) :
    RRes.bind x f = .ok v ↔ ∃ w, x = .ok w ∧ f w = .ok v := by
  cases x <;> simp [RRes.bind]

@[simp] theorem RRes.bind_eq_err_iff {α β : Type} (x : RRes α) (f : α → RRes β)
    (e : LibraryError) :
    RRes.bind x f = .err e ↔ x = .err e ∨ ∃ w, x = .ok w ∧ f w = .err e := by
  cases x <;> simp [RRes.bind]

@[simp] theorem mulU_eq_ok_iff (a b v : Nat) :
    mulU a b = .ok v ↔ a * b < U256size ∧ v = a * b := by
  unfold mulU; split <;> simp_all
  omega

@[simp] theorem addU_eq_ok_iff (a b v : Nat) :
    addU a b = .ok v ↔ a + b < U256size ∧ v = a + b := by
  unfold addU; split <;> simp_all
  omega

@[simp] theorem subU_eq_ok_iff (a b v : Nat) :
    subU a b = .ok v ↔ b ≤ a ∧ v = a - b := by
  unfold subU; split <;> simp_all
  omega

@[simp] theorem divU_eq_ok_iff (a b v : Nat) :
    divU a b = .ok v ↔ b ≠ 0 ∧ v = a / b := by
  unfold divU; split <;> simp_all
  exact eq_comm

@[simp] theorem mulU_ne_err (a b : Nat) (e : LibraryError) : mulU a b ≠ .err e := by
  unfold mulU; split <;> simp

@[simp] theorem addU_ne_err (a b : Nat) (e : LibraryError) : addU a b ≠ .err e := by
  unfold addU; split <;> simp

@[simp] theorem subU_ne_err (a b : Nat) (e : LibraryError) : subU a b ≠ .err e := by
  unfold subU; split <;> simp

@[simp] theorem divU_ne_err (a b : Nat) (e : LibraryError) : divU a b ≠ .err e := by
  unfold divU; split <;> simp

/-! ## Characterisations of the two amount formulas -/

/-- `get_amount_out` succeeds exactly on nonzero input, nonzero reserves and
no 256-bit overflow of the intermediates, and then returns
`⌊amount_in·997·reserve_out / (reserve_in·1000 + amount_in·997)⌋`. -/
theorem get_amount_out_ok_iff (a rin rout v : Nat) :
    get_amount_out a rin rout = .ok v ↔
      a ≠ 0 ∧ rin ≠ 0 ∧ rout ≠ 0 ∧
      a * 997 * rout < U256size ∧ rin * 1000 + a * 997 < U256size ∧
      v = a * 997 * rout / (rin * 1000 + a * 997) := by
  unfold get_amount_out
  rcases eq_or_ne a 0 with ha | ha
  · simp [ha]
  · rcases eq_or_ne rin 0 with h1 | h1
    · simp [ha, h1]
    · rcases eq_or_ne rout 0 with h2 | h2
      · simp [ha, h1, h2]
      · rw [if_neg ha, if_neg (by tauto)]
        simp only [RRes.bind_eq_ok_iff, mulU_eq_ok_iff, addU_eq_ok_iff, divU_eq_ok_iff]
        constructor
        · rintro ⟨w1, ⟨hw1, rfl⟩, w2, ⟨hw2, rfl⟩, w3, ⟨hw3, rfl⟩, w4, ⟨hw4, rfl⟩, hd, rfl⟩
          exact ⟨ha, h1, h2, hw2, hw4, rfl⟩
        · rintro ⟨-, -, -, hnum, hden, rfl⟩
          have hfee : a * 997 < U256size :=
            lt_of_le_of_lt (Nat.le_mul_of_pos_right _ (Nat.pos_of_ne_zero h2)) hnum
          refine ⟨a * 997, ⟨hfee, rfl⟩, a * 997 * rout, ⟨hnum, rfl⟩,
            rin * 1000, ⟨by omega, rfl⟩, rin * 1000 + a * 997, ⟨hden, rfl⟩, ?_, rfl⟩
          have : 0 < rin := Nat.pos_of_ne_zero h1
          omega

/-- `get_amount_in` succeeds exactly on nonzero requested output strictly
below `reserve_out`, nonzero reserves and no 256-bit overflow of the
intermediates, and then returns
`⌊reserve_in·amount_out·1000 / ((reserve_out − amount_out)·997)⌋ + 1`. -/
theorem get_amount_in_ok_iff (o rin rout v : Nat) :
    get_amount_in o rin rout = .ok v ↔
      o ≠ 0 ∧ rin ≠ 0 ∧ o < rout ∧
      rin * o * 1000 < U256size ∧ (rout - o) * 997 < U256size ∧
      v = rin * o * 1000 / ((rout - o) * 997) + 1 := by
  unfold get_amount_in
  rcases eq_or_ne o 0 with ho | ho
  · simp [ho]
  · rcases eq_or_ne rin 0 with h1 | h1
    · simp [ho, h1]
    · rcases eq_or_ne rout 0 with h2 | h2
      · simp [ho, h1, h2]
      · rw [if_neg ho, if_neg (by tauto)]
        simp only [RRes.bind_eq_ok_iff, mulU_eq_ok_iff, subU_eq_ok_iff, divU_eq_ok_iff,
          addU_eq_ok_iff]
        constructor
        · rintro ⟨w1, ⟨hw1, rfl⟩, w2, ⟨hw2, rfl⟩, w3, ⟨hw3, rfl⟩, w4, ⟨hw4, rfl⟩,
            w5, ⟨hd, rfl⟩, hq, rfl⟩
          exact ⟨ho, h1, by omega, hw2, hw4, rfl⟩
        · rintro ⟨-, -, hlt, hnum, hden, rfl⟩
          have hro : rin * o < U256size :=
            lt_of_le_of_lt (Nat.le_mul_of_pos_right _ (by omega)) hnum
          refine ⟨rin * o, ⟨hro, rfl⟩, rin * o * 1000, ⟨hnum, rfl⟩,
            rout - o, ⟨by omega, rfl⟩, (rout - o) * 997, ⟨hden, rfl⟩,
            rin * o * 1000 / ((rout - o) * 997), ⟨by omega, rfl⟩, ?_, rfl⟩
          -- the `+ 1` cannot overflow: the denominator is at least 997
          have h997 : 997 ≤ (rout - o) * 997 := by omega
          have hq : rin * o * 1000 / ((rout - o) * 997) ≤ rin * o * 1000 / 997 :=
            Nat.div_le_div_left h997 (by omega)
          have hb : rin * o * 1000 / 997 ≤ (U256size - 1) / 997 :=
            Nat.div_le_div_right (by omega)
          have hfin : (U256size - 1) / 997 + 1 < U256size := by decide
          omega

/-- `get_amount_out` returns `Err` exactly from its two input guards; the
arithmetic tail can only succeed or panic. -/
theorem get_amount_out_err_iff (a rin rout : Nat) (e : LibraryError) :
    get_amount_out a rin rout = .err e ↔
      (a = 0 ∧ e = .InsufficientInputAmount) ∨
      (a ≠ 0 ∧ (rin = 0 ∨ rout = 0) ∧ e = .InsufficientLiquidity) := by
  unfold get_amount_out
  rcases eq_or_ne a 0 with ha | ha
  · simp [ha, eq_comm]
  · rw [if_neg ha]
    by_cases hz : rin = 0 ∨ rout = 0
    · rw [if_pos hz]; simp [ha, hz, eq_comm]
    · rw [if_neg hz]; simp [ha, hz]

/-- `get_amount_in` returns `Err` exactly from its two input guards; the
arithmetic tail can only succeed or panic. -/
theorem get_amount_in_err_iff (o rin rout : Nat) (e : LibraryError) :
    get_amount_in o rin rout = .err e ↔
      (o = 0 ∧ e = .InsufficientOutputAmount) ∨
      (o ≠ 0 ∧ (rin = 0 ∨ rout = 0) ∧ e = .InsufficientLiquidity) := by
  unfold get_amount_in
  rcases eq_or_ne o 0 with ho | ho
  · simp [ho, eq_comm]
  · rw [if_neg ho]
    by_cases hz : rin = 0 ∨ rout = 0
    · rw [if_pos hz]; simp [ho, hz, eq_comm]
    · rw [if_neg hz]; simp [ho, hz]

/-- When none of the three intermediate products of `get_amount_out`
overflows 256 bits, the function cannot panic. -/
theorem get_amount_out_ne_abort (a rin rout : Nat) (h1 : a * 997 < U256size)
    (h2 : a * 997 * rout < U256size) (h3 : rin * 1000 + a * 997 < U256size) :
    get_amount_out a rin rout ≠ .abort := by
  rcases eq_or_ne a 0 with rfl | ha
  · simp [get_amount_out]
  rcases eq_or_ne rin 0 with rfl | hrin
  · simp [get_amount_out, ha]
  rcases eq_or_ne rout 0 with rfl | hrout
  · simp [get_amount_out, ha, hrin]
  · rw [(get_amount_out_ok_iff a rin rout _).mpr ⟨ha, hrin, hrout, h2, h3, rfl⟩]
    exact fun h => RRes.noConfusion h

/-! ## Claims -/

/-- **C1.** The spec requires: for `amount_out ≥ reserve_out` (with
`amount_out`, `reserve_in`, `reserve_out` all positive) `get_amount_in`
returns `InsufficientLiquidity` and neither wraps, panics on subtraction
underflow, nor divides by zero at the boundary `amount_out = reserve_out`.
The code does not do this: on that whole region it *panics* — `reserve_out -
amount_out` underflows for `amount_out > reserve_out`, and at
`amount_out = reserve_out` the denominator is zero and the division panics.
It never wraps, and it never returns `InsufficientLiquidity` there. -/
theorem claim_C1_boundary_panics (amount_out reserve_in reserve_out : Nat)
    (h0 : amount_out ≠ 0) (h1 : reserve_in ≠ 0) (h2 : reserve_out ≠ 0)
    (hge : reserve_out ≤ amount_out) :
    get_amount_in amount_out reserve_in reserve_out = .abort := by
  cases hres : get_amount_in amount_out reserve_in reserve_out with
  | abort => rfl
  | err e =>
    rw [get_amount_in_err_iff] at hres
    tauto
  | ok v =>
    rw [get_amount_in_ok_iff] at hres
    obtain ⟨-, -, hlt, -⟩ := hres
    omega

/-- Witness for C1: at `amount_out = reserve_out = 5`, `reserve_in = 10`
the code panics (division by zero) instead of returning
`InsufficientLiquidity`. -/
theorem claim_C1_boundary_panics_witness : get_amount_in 5 10 5 = .abort :=
  claim_C1_boundary_panics 5 10 5 (by decide) (by decide) (by decide) (by decide)

/-- **C2**, counterexample to the claim as stated: `get_amount_out` is *not*
total on all 256-bit inputs — at `amount_in = 2^255`, `reserve_in =
reserve_out = 1` the product `amount_in * 997` exceeds `2^256 - 1` and the
checked multiplication panics, returning neither a value nor an error. -/
theorem claim_C2_counterexample : get_amount_out (2 ^ 255) 1 1 = .abort := by decide

/-- **C2**, amended: overflow of the intermediate products of
`get_amount_out` is indeed never allowed to wrap, but it is handled by the
checked `U256` arithmetic panicking, not by an explicit guard returning an
error: whenever the three intermediate products `amount_in * 997`,
`(amount_in * 997) * reserve_out` and `reserve_in * 1000 + amount_in * 997`
all fit in 256 bits the function cannot panic (it returns a value or a typed
error), and when it panics one of those products necessarily overflowed. -/
theorem claim_C2_amended_no_wrap (a rin rout : Nat) :
    (a * 997 < U256size → a * 997 * rout < U256size →
      rin * 1000 + a * 997 < U256size → get_amount_out a rin rout ≠ .abort) ∧
    (get_amount_out a rin rout = .abort →
      U256size ≤ a * 997 ∨ U256size ≤ a * 997 * rout ∨
        U256size ≤ rin * 1000 + a * 997) := by
  constructor
  · exact get_amount_out_ne_abort a rin rout
  · intro habort
    by_contra hcon
    push_neg at hcon
    exact get_amount_out_ne_abort a rin rout hcon.1 hcon.2.1 hcon.2.2 habort

/-- Witness for the amended C2 at small concrete inputs. -/
theorem claim_C2_amended_no_wrap_witness : get_amount_out 3 5 7 ≠ .abort :=
  (claim_C2_amended_no_wrap 3 5 7).1 (by decide) (by decide) (by decide)

/-- **C3.** On positive inputs without intermediate overflow,
`get_amount_out` returns
`⌊amount_in·997·reserve_out / (reserve_in·1000 + amount_in·997)⌋`; it fails
with `InsufficientInputAmount` on zero input and `InsufficientLiquidity` on a
zero reserve; and concretely
`get_amount_out (100·10^18) (1000·10^18) (5000·10^18)` is the floor of the
spec's expression. -/
theorem claim_C3_get_amount_out_correct (a rin rout : Nat) :
    (a ≠ 0 → rin ≠ 0 → rout ≠ 0 → a * 997 * rout < U256size →
      rin * 1000 + a * 997 < U256size →
      get_amount_out a rin rout =
        .ok (a * 997 * rout / (rin * 1000 + a * 997))) ∧
    (a = 0 → get_amount_out a rin rout = .err .InsufficientInputAmount) ∧
    (a ≠ 0 → (rin = 0 ∨ rout = 0) →
      get_amount_out a rin rout = .err .InsufficientLiquidity) ∧
    get_amount_out (100 * 10 ^ 18) (1000 * 10 ^ 18) (5000 * 10 ^ 18) =
      .ok (100 * 10 ^ 18 * 997 * (5000 * 10 ^ 18) /
        (1000 * 10 ^ 18 * 1000 + 100 * 10 ^ 18 * 997)) := by
  refine ⟨?_, ?_, ?_, ?_⟩
  · intro ha h1 h2 hnum hden
    exact (get_amount_out_ok_iff _ _ _ _).mpr ⟨ha, h1, h2, hnum, hden, rfl⟩
  · intro ha; simp [get_amount_out, ha]
  · intro ha hz
    rw [get_amount_out_err_iff]; tauto
  · decide

/-- Witness for C3 at small concrete inputs. -/
theorem claim_C3_get_amount_out_correct_witness :
    get_amount_out 3 5 7 = .ok (3 * 997 * 7 / (5 * 1000 + 3 * 997)) :=
  (claim_C3_get_amount_out_correct 3 5 7).1 (by decide) (by decide) (by decide)
    (by decide) (by decide)

/-- **C4.** On `0 < amount_out < reserve_out`, `reserve_in > 0` without
intermediate overflow, `get_amount_in` returns
`⌊reserve_in·amount_out·1000 / ((reserve_out − amount_out)·997)⌋ + 1`; it
fails with `InsufficientOutputAmount` on zero requested output and
`InsufficientLiquidity` on a zero reserve. -/
theorem claim_C4_get_amount_in_correct (o rin rout : Nat) :
    (o ≠ 0 → rin ≠ 0 → o < rout → rin * o * 1000 < U256size →
      (rout - o) * 997 < U256size →
      get_amount_in o rin rout =
        .ok (rin * o * 1000 / ((rout - o) * 997) + 1)) ∧
    (o = 0 → get_amount_in o rin rout = .err .InsufficientOutputAmount) ∧
    (o ≠ 0 → (rin = 0 ∨ rout = 0) →
      get_amount_in o rin rout = .err .InsufficientLiquidity) := by
  refine ⟨?_, ?_, ?_⟩
  · intro ho h1 hlt hnum hden
    exact (get_amount_in_ok_iff _ _ _ _).mpr ⟨ho, h1, hlt, hnum, hden, rfl⟩
  · intro ho; simp [get_amount_in, ho]
  · intro ho hz
    rw [get_amount_in_err_iff]; tauto

/-- Witness for C4 at small concrete inputs. -/
theorem claim_C4_get_amount_in_correct_witness :
    get_amount_in 3 100 100 = .ok (100 * 3 * 1000 / ((100 - 3) * 997) + 1) :=
  (claim_C4_get_amount_in_correct 3 100 100).1 (by decide) (by decide) (by decide)
    (by decide) (by decide)

/-- **C9** (implicit). A successful `get_amount_out` is strictly below the
output-side reserve: the denominator `reserve_in·1000 + amount_in·997`
strictly exceeds `amount_in·997`, so the quotient is below `reserve_out`. -/
theorem claim_C9_output_lt_reserve_out (a rin rout v : Nat)
    (h : get_amount_out a rin rout = .ok v) : v < rout := by
  rw [get_amount_out_ok_iff] at h
  obtain ⟨ha, h1, h2, hnum, hden, rfl⟩ := h
  have hrin : 0 < rin := Nat.pos_of_ne_zero h1
  have hrout : 0 < rout := Nat.pos_of_ne_zero h2
  have hd : 0 < rin * 1000 + a * 997 := by omega
  rw [Nat.div_lt_iff_lt_mul hd]
  have hlt : a * 997 < rin * 1000 + a * 997 := by omega
  calc a * 997 * rout < (rin * 1000 + a * 997) * rout :=
        (Nat.mul_lt_mul_right hrout).mpr hlt
    _ = rout * (rin * 1000 + a * 997) := Nat.mul_comm _ _

/-- Witness for C9: `get_amount_out 5 100 100 = ok 4` and `4 < 100`. -/
theorem claim_C9_output_lt_reserve_out_witness : (4 : Nat) < 100 :=
  claim_C9_output_lt_reserve_out 5 100 100 4 (by decide)

/-- **C5**, counterexample to the claim as stated: with `reserve_in = 1`,
`reserve_out = 2`, `amount_in = 1000` the swap output is
`out = get_amount_out 1000 1 2 = 1 < reserve_out`, but
`get_amount_in 1 1 2 = 2`, and `2 < 1000`: the recovered input is *not* `≥`
the original `amount_in` (the forward floor discards almost all of the
oversized input, and `get_amount_in` only reports what that output needs). -/
theorem claim_C5_counterexample :
    get_amount_out 1000 1 2 = .ok 1 ∧ (1 : Nat) < 2 ∧
      get_amount_in 1 1 2 = .ok 2 ∧ ¬ (1000 : Nat) ≤ 2 := by decide

/-- **C5**, amended. The fee-plus-rounding guarantee that actually holds is
in the other composition order: letting `out` be the successful result of
`get_amount_out amount_in reserve_in reserve_out` with `out < reserve_out`,
the successful result `ain` of `get_amount_in out reserve_in reserve_out`
need not be `≥ amount_in`, but it always *suffices*: whenever
`get_amount_out ain reserve_in reserve_out` also succeeds, its value is
`≥ out` — the upward `+1` rounding never lets the trader obtain `out` with
an input the forward formula deems too small. -/
theorem claim_C5_amended_round_trip (a rin rout out ain v : Nat)
    (_hout : get_amount_out a rin rout = .ok out) (hlt : out < rout)
    (hin : get_amount_in out rin rout = .ok ain)
    (hback : get_amount_out ain rin rout = .ok v) :
    out ≤ v := by
  rw [get_amount_in_ok_iff] at hin
  obtain ⟨ho, h1, hlt2, hnum, hden, rfl⟩ := hin
  rw [get_amount_out_ok_iff] at hback
  obtain ⟨hain, -, h2, hnum2, hden2, rfl⟩ := hback
  set A := rin * out * 1000 with hA
  set B := (rout - out) * 997 with hB
  set q := A / B with hq
  have hBpos : 0 < B := by
    have : 1 ≤ rout - out := by omega
    have : 997 ≤ (rout - out) * 997 := by omega
    omega
  -- floor division: A < (q + 1) * B
  have hkey : A < (q + 1) * B := (Nat.div_lt_iff_lt_mul hBpos).mp (Nat.lt_succ_self q)
  -- hence the returned input (q + 1) clears the forward threshold for `out`
  have hd2 : 0 < rin * 1000 + (q + 1) * 997 := by
    have : 0 < rin := Nat.pos_of_ne_zero h1
    omega
  rw [Nat.le_div_iff_mul_le hd2]
  -- out * (rin * 1000 + (q + 1) * 997) ≤ (q + 1) * 997 * rout
  have hsplit : rout = (rout - out) + out := by omega
  calc out * (rin * 1000 + (q + 1) * 997)
      = A + (q + 1) * 997 * out := by rw [hA]; ring
    _ ≤ (q + 1) * B + (q + 1) * 997 * out := by omega
    _ = (q + 1) * 997 * ((rout - out) + out) := by rw [hB]; ring
    _ = (q + 1) * 997 * rout := by rw [← hsplit]

/-- Witness for the amended C5: `out(100, 1000, 5000) = 453`,
`in(453, 1000, 5000) = 100`, `out(100, 1000, 5000) = 453 ≥ 453`. -/
theorem claim_C5_amended_round_trip_witness : (453 : Nat) ≤ 453 :=
  claim_C5_amended_round_trip 100 1000 5000 453 100 453 (by decide) (by decide)
    (by decide) (by decide)

/-! ## The chained computations -/

/-- A successful `amountsOutLoop` run has the claimed shape: one amount per
token position, seeded with the input amount, consecutive entries related by
a successful `get_amount_out` on that leg's reserve pair. -/
theorem amountsOutLoop_ok_spec (res : List (Nat × Nat)) (a : Nat) (amounts : List Nat)
    (h : amountsOutLoop res a = .ok amounts) :
    amounts.length = res.length + 1 ∧ amounts.head? = some a ∧
      ∀ i p x y, res.get? i = some p → amounts.get? i = some x →
        amounts.get? (i + 1) = some y → get_amount_out x p.1 p.2 = .ok y := by
  induction res generalizing a amounts with
  | nil =>
    simp only [amountsOutLoop] at h
    injection h with h
    subst h
    refine ⟨rfl, rfl, ?_⟩
    intro i p x y hp
    simp at hp
  | cons pr rest ih =>
    obtain ⟨rin, rout⟩ := pr
    simp only [amountsOutLoop] at h
    rw [RRes.bind_eq_ok_iff] at h
    obtain ⟨next, hnext, h⟩ := h
    rw [RRes.bind_eq_ok_iff] at h
    obtain ⟨tail, htail, h⟩ := h
    injection h with h
    subst h
    obtain ⟨hlen, hhead, hrec⟩ := ih next tail htail
    refine ⟨by simp [hlen], rfl, ?_⟩
    intro i p x y hp hx hy
    cases i with
    | zero =>
      rw [List.get?_cons_zero] at hp hx
      rw [List.get?_cons_succ, List.get?_zero, hhead] at hy
      obtain rfl : p = (rin, rout) := by injection hp with hp; exact hp.symm
      obtain rfl : x = a := by injection hx with hx; exact hx.symm
      obtain rfl : y = next := by injection hy with hy; exact hy.symm
      exact hnext
    | succ n =>
      rw [List.get?_cons_succ] at hp hx hy
      exact hrec n p x y hp hx hy

/-- `amountsOutLoop` propagates the first per-leg failure: if the first `k`
legs succeed (producing the partial amounts `pa`, whose entry at position `k`
is `x`) and leg `k` fails with error `e`, the whole loop returns exactly
`.err e` — no partial vector. -/
theorem amountsOutLoop_err_of_leg :
    ∀ (k : Nat) (res : List (Nat × Nat)) (a : Nat) (pa : List Nat) (x : Nat)
      (p : Nat × Nat) (e : LibraryError),
      amountsOutLoop (res.take k) a = .ok pa →
      pa.get? k = some x → res.get? k = some p →
      get_amount_out x p.1 p.2 = .err e →
      amountsOutLoop res a = .err e := by
  intro k
  induction k with
  | zero =>
    intro res a pa x p e hloop hx hres herr
    cases res with
    | nil => simp at hres
    | cons q rest =>
      obtain ⟨rin, rout⟩ := q
      simp only [List.take_zero, amountsOutLoop] at hloop
      injection hloop with hloop
      subst hloop
      rw [List.get?_cons_zero] at hx hres
      obtain rfl : x = a := by injection hx with hx; exact hx.symm
      obtain rfl : p = (rin, rout) := by injection hres with hres; exact hres.symm
      simp only [amountsOutLoop]
      rw [herr]
      rfl
  | succ n ih =>
    intro res a pa x p e hloop hx hres herr
    cases res with
    | nil => simp at hres
    | cons q rest =>
      obtain ⟨rin, rout⟩ := q
      rw [List.take_succ_cons] at hloop
      simp only [amountsOutLoop] at hloop
      rw [RRes.bind_eq_ok_iff] at hloop
      obtain ⟨next, hnext, hloop⟩ := hloop
      rw [RRes.bind_eq_ok_iff] at hloop
      obtain ⟨tail, htail, hpa⟩ := hloop
      injection hpa with hpa
      subst hpa
      rw [List.get?_cons_succ] at hx hres
      have hrest := ih rest next tail x p e htail hx hres herr
      simp only [amountsOutLoop]
      rw [hnext, RRes.bind_ok, hrest]
      rfl

/-- **C6.** `get_amounts_out` fails with `InvalidPath` on paths shorter than
2. For a path of length `n ≥ 2` whose `n − 1` leg reserve pairs were fetched
successfully: a successful result has length `n`, starts with `amount_in`,
and satisfies `amounts[i+1] = get_amount_out(amounts[i], reserves[i])` on
every leg; and if the first `k` legs succeed while leg `k` fails with error
`e`, the whole call returns exactly `.err e` (no partial vector). -/
theorem claim_C6_get_amounts_out_spec (amount_in : Nat) (path : List Nat)
    (fetch : Except LibraryError (List (Nat × Nat))) :
    (path.length < 2 → get_amounts_out amount_in path fetch = .err .InvalidPath) ∧
    (∀ reserves, 2 ≤ path.length → fetch = .ok reserves →
      reserves.length + 1 = path.length →
      (∀ amounts, get_amounts_out amount_in path fetch = .ok amounts →
        amounts.length = path.length ∧ amounts.head? = some amount_in ∧
          ∀ i p x y, reserves.get? i = some p → amounts.get? i = some x →
            amounts.get? (i + 1) = some y → get_amount_out x p.1 p.2 = .ok y) ∧
      (∀ k pa x p e, amountsOutLoop (reserves.take k) amount_in = .ok pa →
        pa.get? k = some x → reserves.get? k = some p →
        get_amount_out x p.1 p.2 = .err e →
        get_amounts_out amount_in path fetch = .err e)) := by
  constructor
  · intro h
    unfold get_amounts_out
    rw [if_pos h]
  · intro reserves hlen hfetch hres
    subst hfetch
    have hred : get_amounts_out amount_in path (.ok reserves) =
        amountsOutLoop reserves amount_in := by
      unfold get_amounts_out
      rw [if_neg (by omega)]
    constructor
    · intro amounts hok
      rw [hred] at hok
      obtain ⟨h1, h2, h3⟩ := amountsOutLoop_ok_spec reserves amount_in amounts hok
      exact ⟨by omega, h2, h3⟩
    · intro k pa x p e hloop hx hresk herr
      rw [hred]
      exact amountsOutLoop_err_of_leg k reserves amount_in pa x p e hloop hx hresk herr

/-- Witness for C6: the `InvalidPath` branch on a one-token path, and the
success characterisation on the 3-token path `[1, 2, 3]` with reserve pairs
`(100, 100)` per leg, where the amounts are `[5, 4, 3]`. -/
theorem claim_C6_get_amounts_out_spec_witness :
    get_amounts_out 5 [1] (Except.ok []) = .err .InvalidPath ∧
      ([5, 4, 3] : List Nat).length = ([1, 2, 3] : List Nat).length ∧
      ([5, 4, 3] : List Nat).head? = some 5 := by
  refine ⟨(claim_C6_get_amounts_out_spec 5 [1] (Except.ok [])).1 (by decide), ?_⟩
  have h := ((claim_C6_get_amounts_out_spec 5 [1, 2, 3]
      (Except.ok [(100, 100), (100, 100)])).2 [(100, 100), (100, 100)]
      (by decide) rfl (by decide)).1 [5, 4, 3] (by decide)
  exact ⟨h.1, h.2.1⟩

/-- A successful `get_amount_in` result is at least 1 (it is a floor quotient
plus one). -/
theorem get_amount_in_pos (o rin rout v : Nat)
    (h : get_amount_in o rin rout = .ok v) : 1 ≤ v := by
  rw [get_amount_in_ok_iff] at h
  obtain ⟨-, -, -, -, -, rfl⟩ := h
  exact Nat.le_add_left 1 _

/-- A successful `amountsInLoop` run has one amount per token position. -/
theorem amountsInLoop_ok_length (res : List (Nat × Nat)) (a : Nat) (amounts : List Nat)
    (h : amountsInLoop res a = .ok amounts) : amounts.length = res.length + 1 := by
  induction res generalizing amounts with
  | nil =>
    simp only [amountsInLoop] at h
    injection h with h
    subst h
    rfl
  | cons pr rest ih =>
    obtain ⟨rin, rout⟩ := pr
    simp only [amountsInLoop] at h
    rw [RRes.bind_eq_ok_iff] at h
    obtain ⟨tail, htail, h⟩ := h
    rw [RRes.bind_eq_ok_iff] at h
    obtain ⟨first, hfirst, h⟩ := h
    injection h with h
    subst h
    simp [ih tail htail]

/-- Every entry of a successful `amountsInLoop` run other than the seed
(the last entry) is a successful `get_amount_in` result, hence at least 1. -/
theorem amountsInLoop_ok_pos (res : List (Nat × Nat)) (a : Nat) (amounts : List Nat)
    (h : amountsInLoop res a = .ok amounts) :
    ∀ i x, i < res.length → amounts.get? i = some x → 1 ≤ x := by
  induction res generalizing amounts with
  | nil =>
    intro i x hi
    simp at hi
  | cons pr rest ih =>
    obtain ⟨rin, rout⟩ := pr
    simp only [amountsInLoop] at h
    rw [RRes.bind_eq_ok_iff] at h
    obtain ⟨tail, htail, h⟩ := h
    rw [RRes.bind_eq_ok_iff] at h
    obtain ⟨first, hfirst, h⟩ := h
    injection h with h
    subst h
    intro i x hi hx
    cases i with
    | zero =>
      rw [List.get?_cons_zero] at hx
      obtain rfl : x = first := by injection hx with hx; exact hx.symm
      exact get_amount_in_pos _ _ _ _ hfirst
    | succ n =>
      rw [List.get?_cons_succ] at hx
      exact ih tail htail n x (by simpa using hi) hx

/-- **C10** (implicit). A successful `get_amount_in` is never zero (the
unconditional `+ 1` after the floor division), and consequently a successful
`get_amounts_in` vector has no zero entry at any position before the last. -/
theorem claim_C10_amount_in_ge_one :
    (∀ o rin rout v, get_amount_in o rin rout = .ok v → 1 ≤ v) ∧
    (∀ (amount_out : Nat) (path : List Nat)
      (fetch : Except LibraryError (List (Nat × Nat))) (amounts : List Nat) (i x : Nat),
      get_amounts_in amount_out path fetch = .ok amounts →
      i + 1 < amounts.length → amounts.get? i = some x → 1 ≤ x) := by
  constructor
  · exact get_amount_in_pos
  · intro amount_out path fetch amounts i x hok hi hx
    unfold get_amounts_in at hok
    split at hok
    · exact absurd hok (by simp)
    · cases fetch with
      | error e => exact absurd hok (by simp)
      | ok reserves =>
        have hlen := amountsInLoop_ok_length reserves amount_out amounts hok
        exact amountsInLoop_ok_pos reserves amount_out amounts hok i x (by omega) hx

/-- Witness for C10: `get_amount_in 3 100 100 = ok 4 ≥ 1`, and in
`get_amounts_in 3 [1,2,3]` with reserves `(100,100)` per leg the first entry
`5` of `[5, 4, 3]` is `≥ 1`. -/
theorem claim_C10_amount_in_ge_one_witness : (1 : Nat) ≤ 4 ∧ (1 : Nat) ≤ 5 :=
  ⟨claim_C10_amount_in_ge_one.1 3 100 100 4 (by decide),
    claim_C10_amount_in_ge_one.2 3 [1, 2, 3] (Except.ok [(100, 100), (100, 100)])
      [5, 4, 3] 0 5 (by decide) (by decide) (by decide)⟩

/-! ## Pair canonicalisation and address derivation -/

/-- On distinct nonzero inputs, `sort_tokens` succeeds with the pair sorted
ascending. -/
theorem sort_tokens_eq_of_ne (a b : Nat) (hne : a ≠ b) (ha : a ≠ 0) (hb : b ≠ 0) :
    sort_tokens a b = .ok (min a b, max a b) := by
  unfold sort_tokens
  rcases Nat.lt_or_gt_of_ne hne with h | h
  · simp [show compare a b = Ordering.lt from Nat.compare_eq_lt.mpr h, ha,
      Nat.min_eq_left h.le, Nat.max_eq_right h.le]
  · simp [show compare a b = Ordering.gt from Nat.compare_eq_gt.mpr h, hb,
      Nat.min_eq_right h.le, Nat.max_eq_left h.le]

/-- **C8.** `sort_tokens` on two equal tokens fails with
`IdenticalAddresses` — for *every* token, the zero address included, since
the equality check precedes the zero check; with the zero address and a
nonzero token (in either argument order) it fails with `AddressZero`; and on
distinct nonzero tokens it succeeds with the ascending pair. -/
theorem claim_C8_sort_tokens_validation :
    (∀ x : Nat, sort_tokens x x = .error .IdenticalAddresses) ∧
    (∀ y : Nat, y ≠ 0 →
      sort_tokens 0 y = .error .AddressZero ∧
        sort_tokens y 0 = .error .AddressZero) ∧
    (∀ a b : Nat, a ≠ b → a ≠ 0 → b ≠ 0 →
      sort_tokens a b = .ok (min a b, max a b)) := by
  refine ⟨?_, ?_, sort_tokens_eq_of_ne⟩
  · intro x
    unfold sort_tokens
    simp [show compare x x = Ordering.eq from Nat.compare_eq_eq.mpr rfl]
  · intro y hy
    have hpos : 0 < y := Nat.pos_of_ne_zero hy
    constructor
    · unfold sort_tokens
      simp [show compare 0 y = Ordering.lt from Nat.compare_eq_lt.mpr hpos]
    · unfold sort_tokens
      simp [show compare y 0 = Ordering.gt from Nat.compare_eq_gt.mpr hpos]

/-- Witness for C8 at concrete tokens. -/
theorem claim_C8_sort_tokens_validation_witness :
    sort_tokens 0 0 = .error .IdenticalAddresses ∧
      sort_tokens 0 7 = .error .AddressZero ∧
      sort_tokens 7 0 = .error .AddressZero ∧
      sort_tokens 7 3 = .ok (3, 7) := by
  refine ⟨claim_C8_sort_tokens_validation.1 0,
    (claim_C8_sort_tokens_validation.2.1 7 (by decide)).1,
    (claim_C8_sort_tokens_validation.2.1 7 (by decide)).2, ?_⟩
  have h := claim_C8_sort_tokens_validation.2.2 7 3 (by decide) (by decide) (by decide)
  simpa using h

/-- **C7.** For distinct nonzero tokens, `pair_for` succeeds, is symmetric
in the two token arguments (they are canonicalised by `sort_tokens` before
hashing, for any hash function and any factory address / init-code hash),
and is a deterministic pure function of its inputs. -/
theorem claim_C7_pair_for_symmetric (keccak : List Nat → Nat)
    (factory_address pair_code_hash a b : Nat)
    (hne : a ≠ b) (ha : a ≠ 0) (hb : b ≠ 0) :
    (∃ addr, pair_for keccak factory_address pair_code_hash a b = .ok addr) ∧
    pair_for keccak factory_address pair_code_hash a b =
      pair_for keccak factory_address pair_code_hash b a ∧
    ∀ a2 b2, a = a2 → b = b2 →
      pair_for keccak factory_address pair_code_hash a b =
        pair_for keccak factory_address pair_code_hash a2 b2 := by
  have hab := sort_tokens_eq_of_ne a b hne ha hb
  have hba := sort_tokens_eq_of_ne b a (Ne.symm hne) hb ha
  refine ⟨⟨get_create2_address_from_hash keccak factory_address
      (keccak (bytesBE 20 (min a b) ++ bytesBE 20 (max a b))) pair_code_hash, ?_⟩, ?_, ?_⟩
  · unfold pair_for
    rw [hab]
  · unfold pair_for
    rw [hab, hba, min_comm b a, max_comm b a]
  · intro a2 b2 h1 h2
    subst h1
    subst h2
    rfl

/-- Witness for C7 at concrete inputs and a concrete hash function. -/
theorem claim_C7_pair_for_symmetric_witness :
    (∃ addr, pair_for (fun l => l.sum) 11 22 3 7 = .ok addr) ∧
      pair_for (fun l => l.sum) 11 22 3 7 = pair_for (fun l => l.sum) 11 22 7 3 := by
  have h := claim_C7_pair_for_symmetric (fun l => l.sum) 11 22 3 7
    (by decide) (by decide) (by decide)
  exact ⟨h.1, h.2.1⟩

end UniswapRs
